import Mathlib

/-!
Shallow embedding of the lock-pc-server presence/status core (src/server.js).
JavaScript truthiness on the values the server inspects is modelled explicitly:
a missing or empty string is falsy, a missing or zero number is falsy.
-/

namespace LockPc

/-- Truthiness of an optional string, as JavaScript sees it. -/
def strTruthy : Option String → Bool
  | none => false
  | some s => s ≠ ""

/-- Truthiness of an optional number, as JavaScript sees it. -/
def natTruthy : Option Nat → Bool
  | none => false
  | some n => n ≠ 0

/-- Model of the JavaScript expression x or-else d for string values. -/
def jsOrStr (o : Option String) (d : String) : String :=
  match o with
  | some s => if s = "" then d else s
  | none => d

/-- Model of the JavaScript expression x or-else d for numeric values. -/
def jsOrNat (o : Option Nat) (d : Nat) : Nat :=
  match o with
  | some n => if n = 0 then d else n
  | none => d

/-- Model of the JavaScript expression x or-else null for string values. -/
def strNull (o : Option String) : Option String :=
  if strTruthy o then o else none

/-- Model of the JavaScript expression x or-else null for numeric values. -/
def natNull (o : Option Nat) : Option Nat :=
  if natTruthy o then o else none

/-- Model of the JavaScript expression x or-else null for owner ids. -/
def ownerNull (o : Option Nat) : Option Nat :=
  if natTruthy o then o else none

/-- A persisted pc_settings row (table defined in src/database.js). -/
structure Row where
  pc_id : String
  name : String
  owner_id : Option Nat
  ip : Option String
  last_seen : Nat
  last_status : Option String
  last_status_at : Option Nat
deriving Repr, DecidableEq

/-- An in-memory connection-registry value: one pcConnections entry. -/
structure Conn where
  connected : Bool
  socketId : Option String
  status : Option String
  lastStatusAt : Option Nat
deriving Repr, DecidableEq

/-- The empty JavaScript object used when an entry is created lazily. -/
def emptyConn : Conn := ⟨false, none, none, none⟩

/-- A block_periods row (table defined in src/database.js). -/
structure Period where
  id : Nat
  user_id : Nat
  from_time : String
  to_time : String
  days : String
deriving Repr, DecidableEq

/-- The pcConnections map, as an insertion-ordered association list. -/
abbrev Registry := List (String × Conn)

/-- Key lookup in pcConnections. -/
def rget : Registry → String → Option Conn
  | [], _ => none
  | (a, c) :: t, k => if a = k then some c else rget t k

/-- Whether a key is present in pcConnections. -/
def rhas (reg : Registry) (k : String) : Bool :=
  (rget reg k).isSome

/-- Key assignment in pcConnections: update in place, append when new. -/
def rset : Registry → String → Conn → Registry
  | [], k, c => [(k, c)]
  | (a, c0) :: t, k, c => if a = k then (k, c) :: t else (a, c0) :: rset t k c

/-- The JavaScript delete operator on pcConnections. -/
def rdel : Registry → String → Registry
  | [], _ => []
  | (a, c0) :: t, k => if a = k then rdel t k else (a, c0) :: rdel t k

/-- Reverse lookup: first key whose entry carries this socket id. -/
def rfindBySocket : Registry → String → Option String
  | [], _ => none
  | (a, c) :: t, sid => if c.socketId = some sid then some a else rfindBySocket t sid

/-- Live sockets: socket id paired with its pcId tag, in insertion order. -/
abbrev Sockets := List (String × Option String)

/-- Read the pcId tag of a socket. -/
def tagOf : Sockets → String → Option String
  | [], _ => none
  | (a, t) :: r, sid => if a = sid then t else tagOf r sid

/-- Whether a socket id is currently among the live sockets. -/
def sockLiveIn : Sockets → String → Bool
  | [], _ => false
  | (a, _) :: r, sid => if a = sid then true else sockLiveIn r sid

/-- Assign the pcId tag of a socket. -/
def tset : Sockets → String → String → Sockets
  | [], sid, v => [(sid, some v)]
  | (a, t) :: r, sid, v => if a = sid then (a, some v) :: r else (a, t) :: tset r sid v

/-- Scan live sockets for the first one tagged with this pcId. -/
def scanFor : Sockets → String → Option String
  | [], _ => none
  | (a, t) :: r, pcId => if t = some pcId then some a else scanFor r pcId

theorem rget_rset_self (reg : Registry) (k : String) (c : Conn) :
    rget (rset reg k c) k = some c := by
  induction reg with
  | nil => simp [rset, rget]
  | cons h t ih =>
    obtain ⟨a, c0⟩ := h
    by_cases hak : a = k
    · simp [rset, hak, rget]
    · simp [rset, hak, rget, ih]

theorem rget_rset_ne (reg : Registry) (k k' : String) (c : Conn) (h : k' ≠ k) :
    rget (rset reg k c) k' = rget reg k' := by
  have h' : k ≠ k' := Ne.symm h
  induction reg with
  | nil => simp [rset, rget, h']
  | cons hd t ih =>
    obtain ⟨a, c0⟩ := hd
    by_cases hak : a = k
    · subst hak
      simp [rset, rget, h']
    · simp [rset, hak, rget, ih]

theorem rhas_rset (reg : Registry) (k k' : String) (c : Conn) (h : rhas reg k') :
    rhas (rset reg k c) k' := by
  by_cases hk : k' = k
  · subst hk
    simp [rhas, rget_rset_self]
  · simpa [rhas, rget_rset_ne reg k k' c hk] using h

theorem rget_rdel_ne (reg : Registry) (k k' : String) (h : k' ≠ k) :
    rget (rdel reg k) k' = rget reg k' := by
  have h' : k ≠ k' := Ne.symm h
  induction reg with
  | nil => simp [rdel]
  | cons hd t ih =>
    obtain ⟨a, c0⟩ := hd
    by_cases hak : a = k
    · subst hak
      simp [rdel, rget, h', ih]
    · simp [rdel, hak, rget, ih]

theorem rget_rdel_self (reg : Registry) (k : String) :
    rget (rdel reg k) k = none := by
  induction reg with
  | nil => simp [rdel, rget]
  | cons hd t ih =>
    obtain ⟨a, c0⟩ := hd
    by_cases hak : a = k
    · simp [rdel, hak, ih]
    · simp [rdel, hak, rget, ih]

/-- SELECT ... FROM pc_settings WHERE pc_id equals the key, first row. -/
def getRow : List Row → String → Option Row
  | [], _ => none
  | r :: t, k => if r.pc_id = k then some r else getRow t k

/-- Tie-break of ORDER BY last_seen DESC LIMIT 1: keep the later-seen row. -/
def betterSeen (a b : Row) : Row :=
  if b.last_seen > a.last_seen then b else a

/-- SELECT pc_id, owner_id FROM pc_settings WHERE name equals nm
    ORDER BY last_seen DESC LIMIT 1 (server.js register_pc handler). -/
def findByName (store : List Row) (nm : String) : Option Row :=
  match store.filter (fun r => r.name = nm) with
  | [] => none
  | r :: t => some (t.foldl betterSeen r)

/-- The socket register_pc upsert: INSERT ... ON CONFLICT (pc_id) DO UPDATE SET
    name and last_seen unconditionally, ip and owner_id through COALESCE with
    the stored value (server.js line 687). -/
def upsertSocket (store : List Row) (k nm : String) (now : Nat)
    (ip : Option String) (owner : Option Nat) : List Row :=
  if (getRow store k).isSome then
    store.map fun r =>
      if r.pc_id = k then
        { r with
          name := nm
          last_seen := now
          ip := match ip with | some v => some v | none => r.ip
          owner_id := match owner with | some v => some v | none => r.owner_id }
      else r
  else
    store ++ [{ pc_id := k, name := nm, owner_id := owner, ip := ip,
                last_seen := now, last_status := none, last_status_at := none }]

/-- The HTTP register-pc upsert: INSERT ... ON CONFLICT (pc_id) DO UPDATE SET
    name, last_seen, owner_id and ip all overwritten (server.js line 270). -/
def upsertHttpReg (store : List Row) (k nm : String) (now : Nat)
    (ip : Option String) (owner : Option Nat) : List Row :=
  if (getRow store k).isSome then
    store.map fun r =>
      if r.pc_id = k then
        { r with name := nm, last_seen := now, ip := ip, owner_id := owner }
      else r
  else
    store ++ [{ pc_id := k, name := nm, owner_id := owner, ip := ip,
                last_seen := now, last_status := none, last_status_at := none }]

/-- UPDATE pc_settings SET last_status, last_status_at WHERE pc_id = k. -/
def updStatus (store : List Row) (k s : String) (ts : Nat) : List Row :=
  store.map fun r =>
    if r.pc_id = k then { r with last_status := some s, last_status_at := some ts } else r

/-- UPDATE pc_settings SET last_seen WHERE pc_id = k. -/
def updLastSeen (store : List Row) (k : String) (ts : Nat) : List Row :=
  store.map fun r => if r.pc_id = k then { r with last_seen := ts } else r

/-- Whole server state: persisted store, block periods, the in-memory
    pcConnections registry and the live socket table with pcId tags. -/
structure SState where
  store : List Row
  periods : List Period
  reg : Registry
  socks : Sockets
deriving Repr, DecidableEq

/-- SELECT ... FROM block_periods WHERE user_id = uid (row order immaterial
    to the claims, the days field is carried verbatim). -/
def periodsOf (st : SState) (uid : Nat) : List Period :=
  st.periods.filter fun p => p.user_id == uid

/-- The merged-status computation as written in server.js (lines 326 to 329):
    start from the persisted value with an Unknown default, then override with
    the in-memory status when that is truthy and not the literal Unknown. -/
def effectiveStatus (connStatus dbStatus : Option String) : String :=
  let s0 := jsOrStr dbStatus "Unknown"
  match connStatus with
  | some s => if s ≠ "" && s ≠ "Unknown" then s else s0
  | none => s0

/-- Modelled from the spec: the three-tier fallback exactly as worded in the
    merged-view paragraph — in-memory status if present and not Unknown, else
    the persisted last_status if present, else the literal Unknown. Stated
    independently of the code so the two can be compared. -/
def threeTierStatusSpec (connStatus dbStatus : Option String) : String :=
  if strTruthy connStatus && connStatus != some "Unknown" then connStatus.getD "Unknown"
  else if strTruthy dbStatus then dbStatus.getD "Unknown"
  else "Unknown"

/-- One element of the device list the server sends to dashboards. -/
structure Entry where
  id : String
  name : String
  connected : Bool
  socketId : Option String
  status : String
  lastSeen : Option Nat
  lastStatusAt : Option Nat
  ownerId : Option Nat
  ip : Option String
deriving Repr, DecidableEq

/-- Build one list element from a persisted row plus the registry, exactly as
    the map in the api-pcs route and in broadcastUpdate does. -/
def entryOfRow (reg : Registry) (row : Row) : Entry :=
  let c := (rget reg row.pc_id).getD emptyConn
  { id := row.pc_id
    name := row.name
    connected := c.connected
    socketId := strNull c.socketId
    status := effectiveStatus c.status row.last_status
    lastSeen := some row.last_seen
    lastStatusAt := natNull row.last_status_at
    ownerId := ownerNull row.owner_id
    ip := strNull row.ip }

/-- The authenticated api-pcs read: rows WHERE owner_id = uid, mapped. -/
def apiPcs (uid : Nat) (st : SState) : List Entry :=
  (st.store.filter fun r => r.owner_id == some uid).map (entryOfRow st.reg)

/-- The owner key a row contributes to the byOwner grouping; rows with a
    falsy owner are skipped (server.js line 824). -/
def ownerKeyOf (r : Row) : Option Nat :=
  ownerNull r.owner_id

/-- Owners that receive a broadcast, in first-appearance order. -/
def broadcastOwners (store : List Row) : List Nat :=
  (store.filterMap ownerKeyOf).dedup

/-- The per-owner list broadcastUpdate builds for one owner. -/
def broadcastListFor (st : SState) (o : Nat) : List Entry :=
  (st.store.filter fun r => ownerKeyOf r == some o).map (entryOfRow st.reg)

/-- Everything the server may emit on the socket layer. -/
inductive Action where
  | statusRequest (sid : String)
  | scheduleToSocket (sid : String) (rows : List Period)
  | scheduleToDashboard (uid : Nat) (rows : List Period)
  | pcUpdate (uid : Nat) (list : List Entry)
  | persistStatus (pc : String) (status : String) (ts : Nat)
deriving Repr, DecidableEq

/-- The broadcastUpdate function: one pc_update emission per owning user. -/
def broadcastActions (st : SState) : List Action :=
  (broadcastOwners st.store).map fun o => Action.pcUpdate o (broadcastListFor st o)

/-- Payload of a register_pc socket event. -/
structure RegisterMsg where
  id : String
  name : Option String
  clientType : Option String
  localIp : Option String
deriving Repr, DecidableEq

/-- The register_pc socket handler (server.js lines 608 to 740).
    Returns the new state, the emitted actions, and the identity the handler
    ends up using for this device (data.id after a possible merge). -/
def registerPcSocket (st : SState) (sid : String) (msg : RegisterMsg)
    (sessionUser : Option Nat) (now : Nat) : SState × List Action × String :=
  if msg.clientType ≠ some "pc_app" then (st, [], msg.id)
  else
    -- merge connection state into the entry, never blindly replace
    let c0 := (rget st.reg msg.id).getD emptyConn
    let c1 : Conn := { c0 with connected := true, socketId := some sid }
    -- hydrate a missing status from the persisted row, leave unset on miss
    let hydrated : Option String :=
      if strTruthy c1.status then c1.status
      else
        match getRow st.store msg.id with
        | some r => if strTruthy r.last_status then r.last_status else c1.status
        | none => c1.status
    let c2 : Conn := { c1 with status := hydrated }
    let reg1 := rset st.reg msg.id c2
    let socks1 := tset st.socks sid msg.id
    -- ownership context carried by the announce (socket session, truthy only)
    let owner0 : Option Nat := ownerNull sessionUser
    -- look for an existing row with the same display name
    let found : Option Row :=
      match msg.name with
      | some nm => if nm = "" then none else findByName st.store nm
      | none => none
    let existingPcId : Option String := found.map (·.pc_id)
    let existingOwnerId : Option Nat := found.bind (·.owner_id)
    -- preserve the existing owner only when both values are truthy
    let ownerId : Option Nat :=
      if strTruthy existingPcId && natTruthy existingOwnerId then existingOwnerId else owner0
    let finalId : String := jsOrStr existingPcId msg.id
    let nameVal : String := jsOrStr msg.name msg.id
    let store1 := upsertSocket st.store finalId nameVal now (strNull msg.localIp) ownerId
    -- identity merge: move the registry entry and retag the socket
    let doMerge : Bool :=
      match existingPcId with
      | some p => p ≠ "" && p ≠ msg.id
      | none => false
    let reg2 :=
      if doMerge then
        match rget reg1 msg.id with
        | some c => rdel (rset reg1 finalId c) msg.id
        | none => rdel reg1 msg.id
      else reg1
    let socks2 := if doMerge then tset socks1 sid finalId else socks1
    let dataId := if doMerge then finalId else msg.id
    let st1 : SState := { st with store := store1, reg := reg2, socks := socks2 }
    -- push the saved schedule to this device when an owner is known; note
    -- that the emission is not guarded on the list being non-empty here
    let acts : List Action :=
      match (getRow store1 dataId).bind (·.owner_id) with
      | some w =>
        if w ≠ 0 then
          let rows := periodsOf st1 w
          match rget reg2 dataId with
          | some c =>
            if c.connected && strTruthy c.socketId then
              [Action.scheduleToSocket (c.socketId.getD "") rows]
            else []
          | none => []
        else []
      | none => []
    (st1, acts, dataId)

/-- Payload of a pc_status socket event. -/
structure StatusMsg where
  id : Option String
  status : Option String
deriving Repr, DecidableEq

/-- The reverse-lookup fallback shared by the pc_status and disconnect
    handlers: the first registry key carrying this socket, else the tag the
    socket was stamped with. -/
def reverseIdOf (st : SState) (sid : String) : Option String :=
  match rfindBySocket st.reg sid with
  | some k => if k ≠ "" then some k else tagOf st.socks sid
  | none => tagOf st.socks sid

/-- Resolution of the effective pcId of a status report: the explicit id when
    truthy, else the reverse socket lookup, else the socket tag. -/
def resolveStatusId (st : SState) (sid : String) (msg : StatusMsg) : Option String :=
  if strTruthy msg.id then msg.id
  else reverseIdOf st sid

/-- The pc_status socket handler (server.js lines 751 to 792). The persistOk
    flag models whether the store write succeeds; a failure is only logged. -/
def pcStatusH (st : SState) (sid : String) (msg : StatusMsg) (now : Nat)
    (persistOk : Bool) : SState × List Action :=
  match resolveStatusId st sid msg with
  | none => (st, [])
  | some pcId =>
    if pcId = "" then (st, [])
    else
      let c0 := (rget st.reg pcId).getD emptyConn
      let newStatus : String :=
        match msg.status with
        | some s => if s ≠ "" then s else jsOrStr c0.status "Unknown"
        | none => jsOrStr c0.status "Unknown"
      let c1 : Conn :=
        { c0 with status := some newStatus, lastStatusAt := some now,
                  connected := true, socketId := some sid }
      let reg1 := rset st.reg pcId c1
      let socks1 := tset st.socks sid pcId
      let store1 := if persistOk then updStatus st.store pcId newStatus now else st.store
      let st1 : SState := { st with store := store1, reg := reg1, socks := socks1 }
      (st1, Action.persistStatus pcId newStatus now :: broadcastActions st1)

/-- The disconnect handler (server.js lines 794 to 812): reverse lookup, flip
    connected off, clear the handle, persist last_seen, broadcast. -/
def disconnectH (st : SState) (sid : String) (now : Nat) : SState × List Action :=
  match reverseIdOf st sid with
  | none => (st, [])
  | some pcId =>
    if pcId = "" then (st, [])
    else
      let c0 := (rget st.reg pcId).getD emptyConn
      let c1 : Conn := { c0 with connected := false, socketId := none }
      let reg1 := rset st.reg pcId c1
      let store1 := updLastSeen st.store pcId now
      let st1 : SState := { st with store := store1, reg := reg1 }
      (st1, broadcastActions st1)

/-- notifyScheduleChangeForUser (server.js lines 500 to 531): push the block
    list to each connected device of the user and to the dashboard room, in
    both cases only when the list is non-empty. -/
def notifyScheduleChangeForUser (st : SState) (uid : Nat) : List Action :=
  let rows := periodsOf st uid
  let pcActs : List Action :=
    (st.store.filter fun r => r.owner_id == some uid).filterMap fun r =>
      match rget st.reg r.pc_id with
      | some c =>
        if c.connected && strTruthy c.socketId then
          if rows ≠ [] then some (Action.scheduleToSocket (c.socketId.getD "") rows)
          else none
        else none
      | none => none
  pcActs ++ (if rows ≠ [] then [Action.scheduleToDashboard uid rows] else [])

/-- The HTTP register-pc route (server.js lines 263 to 313), for an
    authenticated user: optional pc_settings upsert, a schedule push guarded
    on the list being non-empty, then a broadcast. -/
def apiRegisterPc (st : SState) (uid : Nat) (msg : RegisterMsg) (now : Nat) :
    SState × List Action :=
  if ¬ strTruthy (some msg.id) then (st, [])
  else
    let store1 :=
      if msg.clientType = some "pc_app" then
        upsertHttpReg st.store msg.id (jsOrStr msg.name msg.id) now
          (strNull msg.localIp) (some uid)
      else st.store
    let st1 : SState := { st with store := store1 }
    let rows := periodsOf st1 uid
    let schedActs : List Action :=
      match rget st1.reg msg.id with
      | some c =>
        if msg.clientType = some "pc_app" && c.connected && strTruthy c.socketId then
          if rows ≠ [] then [Action.scheduleToSocket (c.socketId.getD "") rows]
          else []
        else []
      | none => []
    (st1, schedActs ++ broadcastActions st1)

/-- The value the fast-path race resolves with when the device answers. -/
structure ReplyPayload where
  status : Option String
  lastStatusAt : Option Nat
deriving Repr, DecidableEq

/-- The HTTP responses the probe route can produce. -/
inductive ProbeResp where
  | forbidden
  | staleResult (status : String) (lastStatusAt : Option Nat)
  | offline503
  | probed (status : String) (lastStatusAt : Option Nat)
deriving Repr, DecidableEq

/-- A registry entry counts as live when connected with a truthy handle. -/
def isLive (c : Conn) : Bool :=
  c.connected && strTruthy c.socketId

/-- One pass of the probe rescan loop body: pick up a registry entry that
    already carries a socket id, else scan the live sockets for one tagged
    with this pcId (creating or reviving the entry), else give up after the
    2000 ms window. Returns registry, found entry and elapsed milliseconds. -/
def scanSockets (reg : Registry) (socks : Sockets) (pcId : String) :
    Registry × Option Conn × Nat :=
  match scanFor socks pcId with
  | some sid =>
    let c0 := (rget reg pcId).getD emptyConn
    let c1 : Conn :=
      { c0 with connected := true, socketId := some sid,
                status := some (jsOrStr c0.status "Unknown") }
    (rset reg pcId c1, some c1, 0)
  | none => (reg, none, 2000)

/-- The probe resolve phase when the initial registry check was not live. -/
def resolveScan (reg : Registry) (socks : Sockets) (pcId : String) :
    Registry × Option Conn × Nat :=
  match rget reg pcId with
  | some c => if strTruthy c.socketId then (reg, some c, 0) else scanSockets reg socks pcId
  | none => scanSockets reg socks pcId

/-- The probe route (server.js lines 353 to 497). The parameter fastReply is
    the outcome of the 3000 ms race between a tagged status_reply, an ordinary
    pc_status from the same socket, and the timeout; pollUpd is the registry
    entry as rewritten by a concurrent status report during the legacy poll,
    when one arrives. Returns state, response, actions, elapsed milliseconds. -/
def probeH (st : SState) (uid : Nat) (pcId : String)
    (fastReply : Option ReplyPayload) (pollUpd : Option Conn) (now : Nat) :
    SState × ProbeResp × List Action × Nat :=
  match getRow st.store pcId with
  | none => (st, ProbeResp.forbidden, [], 0)
  | some row =>
    if row.owner_id ≠ some uid then (st, ProbeResp.forbidden, [], 0)
    else
      -- resolve a live connection, rescanning for up to 2000 ms
      let resolved : Registry × Option Conn × Nat :=
        match rget st.reg pcId with
        | some c => if isLive c then (st.reg, some c, 0) else resolveScan st.reg st.socks pcId
        | none => resolveScan st.reg st.socks pcId
      let reg1 := resolved.1
      let connOpt := resolved.2.1
      let scanMs := resolved.2.2
      let offline : Bool :=
        match connOpt with
        | none => true
        | some c => !(c.connected && strTruthy c.socketId)
      if offline then
        -- fall back to the persisted status, else answer 503
        let st1 : SState := { st with reg := reg1 }
        match getRow st.store pcId with
        | some r2 =>
          if strTruthy r2.last_status then
            (st1, ProbeResp.staleResult (r2.last_status.getD "") r2.last_status_at, [], scanMs)
          else (st1, ProbeResp.offline503, [], scanMs)
        | none => (st1, ProbeResp.offline503, [], scanMs)
      else
        let c := connOpt.getD emptyConn
        let sockOk : Bool :=
          match c.socketId with
          | some sid => sockLiveIn st.socks sid
          | none => false
        -- fast path: emit a tagged status_request and race a reply
        let fast : Registry × Bool × List Action × Nat :=
          if sockOk then
            let acts := [Action.statusRequest (c.socketId.getD "")]
            match fastReply with
            | some rp =>
              let c2 : Conn :=
                { c with status := some (jsOrStr rp.status (jsOrStr c.status "Unknown")),
                         lastStatusAt := some (jsOrNat rp.lastStatusAt now) }
              (rset reg1 pcId c2, true, acts, 0)
            | none => (reg1, false, acts, 3000)
          else (reg1, false, [], 0)
        let reg2 := fast.1
        let replied := fast.2.1
        let acts := fast.2.2.1
        let fastMs := fast.2.2.2
        -- legacy fallback: poll lastStatusAt for up to a further 3000 ms
        let poll : Registry × Nat :=
          if replied then (reg2, 0)
          else
            match pollUpd with
            | some c3 => (rset reg2 pcId c3, 0)
            | none => (reg2, 3000)
        let reg3 := poll.1
        let pollMs := poll.2
        let cF := (rget reg3 pcId).getD emptyConn
        let st1 : SState := { st with reg := reg3 }
        (st1, ProbeResp.probed (jsOrStr cF.status "Unknown") (natNull cF.lastStatusAt),
          acts, scanMs + fastMs + pollMs)

/-! Supporting lemmas about the store and socket helpers. -/

theorem tagOf_tset_self (s : Sockets) (sid v : String) :
    tagOf (tset s sid v) sid = some v := by
  induction s with
  | nil => simp [tset, tagOf]
  | cons hd t ih =>
    obtain ⟨a, tg⟩ := hd
    by_cases ha : a = sid
    · simp [tset, ha, tagOf]
    · simp [tset, ha, tagOf, ih]

theorem foldl_betterSeen_mem (t : List Row) (r : Row) :
    t.foldl betterSeen r ∈ r :: t := by
  induction t generalizing r with
  | nil => simp
  | cons b t ih =>
    simp only [List.foldl_cons]
    have h := ih (betterSeen r b)
    have hb : betterSeen r b = b ∨ betterSeen r b = r := by
      unfold betterSeen; split <;> simp
    rcases List.mem_cons.mp h with h1 | h1
    · rcases hb with h2 | h2
      · rw [h2] at h1 ⊢
        simp [h1]
      · rw [h2] at h1 ⊢
        simp [h1]
    · rcases hb with h2 | h2
      · rw [h2] at h1 ⊢
        simp [h1]
      · rw [h2] at h1 ⊢
        simp [h1]

theorem findByName_mem (store : List Row) (nm : String) (r : Row)
    (h : findByName store nm = some r) : r ∈ store ∧ r.name = nm := by
  unfold findByName at h
  cases hf : store.filter (fun r => r.name = nm) with
  | nil => rw [hf] at h; cases h
  | cons r0 t =>
    rw [hf] at h
    have hr : r = t.foldl betterSeen r0 := by
      simpa using h.symm
    have hmem : r ∈ r0 :: t := by
      rw [hr]; exact foldl_betterSeen_mem t r0
    have hmem2 : r ∈ store.filter (fun r => r.name = nm) := by
      rw [hf]; exact hmem
    have hsp := List.mem_filter.mp hmem2
    exact ⟨hsp.1, by simpa using hsp.2⟩

theorem getRow_isSome_of_mem (store : List Row) (r : Row) (k : String)
    (hr : r ∈ store) (hk : r.pc_id = k) : (getRow store k).isSome := by
  induction store with
  | nil => cases hr
  | cons a t ih =>
    rcases List.mem_cons.mp hr with h1 | h1
    · subst h1; simp [getRow, hk]
    · by_cases ha : a.pc_id = k
      · simp [getRow, ha]
      · simp [getRow, ha, ih h1]

theorem getRow_eq_some_key (store : List Row) (k : String) (r : Row)
    (h : getRow store k = some r) : r.pc_id = k := by
  induction store with
  | nil => cases h
  | cons a t ih =>
    by_cases ha : a.pc_id = k
    · simp [getRow, ha] at h
      rw [← h]; exact ha
    · simp [getRow, ha] at h
      exact ih h

theorem getRow_map (store : List Row) (f : Row → Row) (k : String)
    (hf : ∀ r, (f r).pc_id = r.pc_id) :
    getRow (store.map f) k = (getRow store k).map f := by
  induction store with
  | nil => simp [getRow]
  | cons a t ih =>
    by_cases ha : a.pc_id = k
    · simp [getRow, ha, hf]
    · simp [getRow, ha, hf, ih]

/-! C1, C5, C10. -/

/-- C1: in the merged-view read used by the api-pcs route and the broadcaster,
    the effective status is the in-memory status when present and not Unknown,
    else the persisted last_status when present, else the literal Unknown; and
    a device owned by the requesting owner is never omitted from the list. -/
theorem merged_view_status_and_no_omission :
    (∀ cs ds, effectiveStatus cs ds = threeTierStatusSpec cs ds) ∧
    (∀ uid st, ∀ r ∈ st.store, r.owner_id = some uid →
        entryOfRow st.reg r ∈ apiPcs uid st) ∧
    (∀ st o, ∀ r ∈ st.store, ownerKeyOf r = some o →
        entryOfRow st.reg r ∈ broadcastListFor st o ∧
        Action.pcUpdate o (broadcastListFor st o) ∈ broadcastActions st) := by
  refine ⟨?_, ?_, ?_⟩
  · intro cs ds
    have hds : jsOrStr ds "Unknown" =
        if strTruthy ds then ds.getD "Unknown" else "Unknown" := by
      cases ds with
      | none => simp [jsOrStr, strTruthy]
      | some x => by_cases hx : x = "" <;> simp [jsOrStr, strTruthy, hx]
    cases cs with
    | none => simp [effectiveStatus, threeTierStatusSpec, strTruthy, hds]
    | some s =>
      by_cases hs : s = ""
      · subst hs
        simp [effectiveStatus, threeTierStatusSpec, strTruthy, hds]
      · by_cases hu : s = "Unknown"
        · subst hu
          simp [effectiveStatus, threeTierStatusSpec, strTruthy, hds]
        · simp [effectiveStatus, threeTierStatusSpec, strTruthy, hs, hu]
  · intro uid st r hr hro
    exact List.mem_map_of_mem _ (List.mem_filter.mpr ⟨hr, by simp [hro]⟩)
  · intro st o r hr hro
    constructor
    · exact List.mem_map_of_mem _ (List.mem_filter.mpr ⟨hr, by simp [hro]⟩)
    · refine List.mem_map_of_mem _ ?_
      exact List.mem_dedup.mpr (List.mem_filterMap.mpr ⟨r, hr, hro⟩)

/-- Witness for C1 at a concrete state. -/
theorem merged_view_status_and_no_omission_witness :
    effectiveStatus (some "Locked") (some "Unlocked") =
      threeTierStatusSpec (some "Locked") (some "Unlocked") ∧
    entryOfRow [] ⟨"A", "X", some 7, none, 5, none, none⟩ ∈
      apiPcs 7 ⟨[⟨"A", "X", some 7, none, 5, none, none⟩], [], [], []⟩ :=
  ⟨merged_view_status_and_no_omission.1 (some "Locked") (some "Unlocked"),
   merged_view_status_and_no_omission.2.1 7
     ⟨[⟨"A", "X", some 7, none, 5, none, none⟩], [], [], []⟩
     ⟨"A", "X", some 7, none, 5, none, none⟩ (by simp) rfl⟩

/-- C5: every device list the broadcaster pushes to an owner group contains
    only entries whose owner id is that owner, hence never a null owner. -/
theorem broadcast_excludes_unowned (st : SState) (o : Nat) (l : List Entry)
    (h : Action.pcUpdate o l ∈ broadcastActions st) :
    ∀ e ∈ l, e.ownerId = some o ∧ e.ownerId ≠ none := by
  intro e he
  unfold broadcastActions at h
  rcases List.mem_map.mp h with ⟨o', _, heq⟩
  cases heq
  rcases List.mem_map.mp he with ⟨r, hrf, hre⟩
  have hro := (List.mem_filter.mp hrf).2
  have hko : ownerKeyOf r = some o := by simpa using hro
  subst hre
  constructor
  · simp [entryOfRow, ownerKeyOf] at hko ⊢
    exact hko
  · simp [entryOfRow, ownerKeyOf] at hko ⊢
    simp [hko]

/-- Witness for C5 at a concrete state. -/
theorem broadcast_excludes_unowned_witness :
    (entryOfRow [] ⟨"A", "X", some 7, none, 5, none, none⟩).ownerId = some 7 ∧
    (entryOfRow [] ⟨"A", "X", some 7, none, 5, none, none⟩).ownerId ≠ none :=
  broadcast_excludes_unowned
    ⟨[⟨"A", "X", some 7, none, 5, none, none⟩], [], [], []⟩ 7
    [entryOfRow [] ⟨"A", "X", some 7, none, 5, none, none⟩]
    (by decide) (entryOfRow [] ⟨"A", "X", some 7, none, 5, none, none⟩) (by decide)

/-- C10: when no row exists for the probed pcId or the row belongs to a
    different user, the probe answers Forbidden before any machinery runs:
    no rescan, no status_request, and the whole state is untouched. -/
theorem probe_forbidden_before_machinery (st : SState) (uid : Nat) (pcId : String)
    (fr : Option ReplyPayload) (pu : Option Conn) (now : Nat)
    (h : ∀ r, getRow st.store pcId = some r → r.owner_id ≠ some uid) :
    probeH st uid pcId fr pu now = (st, ProbeResp.forbidden, [], 0) := by
  unfold probeH
  cases hg : getRow st.store pcId with
  | none => rfl
  | some r => simp [h r hg]

/-- Witness for C10 at a concrete state. -/
theorem probe_forbidden_before_machinery_witness :
    probeH ⟨[⟨"A", "X", some 7, none, 5, none, none⟩], [], [], []⟩ 8 "A" none none 3 =
      (⟨[⟨"A", "X", some 7, none, 5, none, none⟩], [], [], []⟩,
       ProbeResp.forbidden, [], 0) :=
  probe_forbidden_before_machinery
    ⟨[⟨"A", "X", some 7, none, 5, none, none⟩], [], [], []⟩ 8 "A" none none 3
    (by decide)

/-! C4 and C9. -/

/-- C4: for a status report that resolves to a pcId, the handler updates the
    registry entry (status, lastStatusAt = now, connected, socket handle),
    then issues the persisted status write and then the full broadcast; a
    store-write failure changes neither the registry nor the action sequence,
    and the broadcast still happens. -/
theorem pc_status_persist_fault_isolated (st : SState) (sid : String) (msg : StatusMsg)
    (now : Nat) (pcId : String)
    (hres : resolveStatusId st sid msg = some pcId) (hne : pcId ≠ "") :
    ∃ ns : String,
      (pcStatusH st sid msg now true).1.reg = (pcStatusH st sid msg now false).1.reg ∧
      rget (pcStatusH st sid msg now false).1.reg pcId =
        some ⟨true, some sid, some ns, some now⟩ ∧
      (pcStatusH st sid msg now true).2 =
        Action.persistStatus pcId ns now ::
          broadcastActions (pcStatusH st sid msg now true).1 ∧
      (pcStatusH st sid msg now false).2 =
        Action.persistStatus pcId ns now ::
          broadcastActions (pcStatusH st sid msg now false).1 ∧
      (pcStatusH st sid msg now false).1.store = st.store := by
  refine ⟨match msg.status with
    | some s => if s ≠ "" then s
       else jsOrStr ((rget st.reg pcId).getD emptyConn).status "Unknown"
    | none => jsOrStr ((rget st.reg pcId).getD emptyConn).status "Unknown", ?_, ?_, ?_, ?_, ?_⟩ <;>
    simp only [pcStatusH, hres, hne, if_neg, ite_false] <;>
    simp [rget_rset_self]

/-- Witness for C4 at a concrete state. -/
theorem pc_status_persist_fault_isolated_witness :
    ∃ ns : String,
      (pcStatusH ⟨[], [], [], [("s1", none)]⟩ "s1" ⟨some "A", some "Locked"⟩ 9 true).1.reg =
        (pcStatusH ⟨[], [], [], [("s1", none)]⟩ "s1" ⟨some "A", some "Locked"⟩ 9 false).1.reg ∧
      rget (pcStatusH ⟨[], [], [], [("s1", none)]⟩ "s1" ⟨some "A", some "Locked"⟩ 9 false).1.reg "A" =
        some ⟨true, some "s1", some ns, some 9⟩ ∧
      (pcStatusH ⟨[], [], [], [("s1", none)]⟩ "s1" ⟨some "A", some "Locked"⟩ 9 true).2 =
        Action.persistStatus "A" ns 9 ::
          broadcastActions (pcStatusH ⟨[], [], [], [("s1", none)]⟩ "s1" ⟨some "A", some "Locked"⟩ 9 true).1 ∧
      (pcStatusH ⟨[], [], [], [("s1", none)]⟩ "s1" ⟨some "A", some "Locked"⟩ 9 false).2 =
        Action.persistStatus "A" ns 9 ::
          broadcastActions (pcStatusH ⟨[], [], [], [("s1", none)]⟩ "s1" ⟨some "A", some "Locked"⟩ 9 false).1 ∧
      (pcStatusH ⟨[], [], [], [("s1", none)]⟩ "s1" ⟨some "A", some "Locked"⟩ 9 false).1.store = [] :=
  pc_status_persist_fault_isolated ⟨[], [], [], [("s1", none)]⟩ "s1"
    ⟨some "A", some "Locked"⟩ 9 "A" (by decide) (by decide)

/-- C9: a probe whose target has no live connection and that finds nothing in
    the rescan window answers with the persisted status tagged stale when one
    exists, else with the 503 offline answer, within the five second bound,
    emitting nothing and leaving the registry unchanged. -/
theorem probe_offline_bounded (st : SState) (uid : Nat) (pcId : String)
    (fr : Option ReplyPayload) (pu : Option Conn) (now : Nat) (row : Row)
    (hrow : getRow st.store pcId = some row) (hown : row.owner_id = some uid)
    (hnl : ∀ c, rget st.reg pcId = some c → isLive c = false)
    (hscan : scanFor st.socks pcId = none) :
    ((if strTruthy row.last_status then
        (probeH st uid pcId fr pu now).2.1 =
          ProbeResp.staleResult (row.last_status.getD "") row.last_status_at
      else (probeH st uid pcId fr pu now).2.1 = ProbeResp.offline503) ∧
     (probeH st uid pcId fr pu now).2.2.2 ≤ 5000 ∧
     (probeH st uid pcId fr pu now).2.2.1 = [] ∧
     (probeH st uid pcId fr pu now).1.reg = st.reg) := by
  have hmain : (probeH st uid pcId fr pu now) =
      ({ st with reg := st.reg },
        (if strTruthy row.last_status then
          ProbeResp.staleResult (row.last_status.getD "") row.last_status_at
         else ProbeResp.offline503), [],
        (match rget st.reg pcId with
          | some c => if strTruthy c.socketId then 0 else 2000
          | none => 2000)) := by
    unfold probeH
    rw [hrow]
    simp only [hown, ne_eq, not_true_eq_false, if_false]
    cases hc : rget st.reg pcId with
    | none =>
      simp only [resolveScan, scanSockets, hc, hscan]
      simp [hrow]
      split <;> rfl
    | some c =>
      have hl := hnl c hc
      simp only [hl, resolveScan, scanSockets, hc, hscan, Bool.false_eq_true, if_false]
      by_cases hsk : strTruthy c.socketId
      · have hcon : c.connected = false := by
          unfold isLive at hl
          cases hcc : c.connected
          · rfl
          · rw [hcc, hsk] at hl; cases hl
        simp [hsk, hcon, hrow]
        split <;> rfl
      · simp [hsk, hrow]
        split <;> rfl
  rw [hmain]
  refine ⟨?_, ?_, rfl, rfl⟩
  · by_cases hls : strTruthy row.last_status <;> simp [hls]
  · cases rget st.reg pcId with
    | none => simp
    | some c => by_cases hsk : strTruthy c.socketId <;> simp [hsk]

/-- Witness for C9 at a concrete state. -/
theorem probe_offline_bounded_witness :
    ((if strTruthy (⟨"P", "X", some 7, none, 5, some "Locked", some 90⟩ : Row).last_status then
        (probeH ⟨[⟨"P", "X", some 7, none, 5, some "Locked", some 90⟩], [], [], []⟩
            7 "P" none none 200).2.1 =
          ProbeResp.staleResult
            ((⟨"P", "X", some 7, none, 5, some "Locked", some 90⟩ : Row).last_status.getD "")
            (⟨"P", "X", some 7, none, 5, some "Locked", some 90⟩ : Row).last_status_at
      else (probeH ⟨[⟨"P", "X", some 7, none, 5, some "Locked", some 90⟩], [], [], []⟩
            7 "P" none none 200).2.1 = ProbeResp.offline503) ∧
     (probeH ⟨[⟨"P", "X", some 7, none, 5, some "Locked", some 90⟩], [], [], []⟩
        7 "P" none none 200).2.2.2 ≤ 5000 ∧
     (probeH ⟨[⟨"P", "X", some 7, none, 5, some "Locked", some 90⟩], [], [], []⟩
        7 "P" none none 200).2.2.1 = [] ∧
     (probeH ⟨[⟨"P", "X", some 7, none, 5, some "Locked", some 90⟩], [], [], []⟩
        7 "P" none none 200).1.reg = []) :=
  probe_offline_bounded
    ⟨[⟨"P", "X", some 7, none, 5, some "Locked", some 90⟩], [], [], []⟩
    7 "P" none none 200 ⟨"P", "X", some 7, none, 5, some "Locked", some 90⟩
    (by decide) rfl (by intro c hc; cases hc) rfl

/-! C3. -/

/-- C3 counterexample: a probe against a resolved live connection in which the
    fast path got no reply and the legacy poll saw no advance produces exactly
    the same HTTP answer as a successful probe whose device confirmed the
    status Unknown: both are the plain 200 body with status Unknown, so the
    failed probe is not distinguishable and is silently returned as Unknown. -/
theorem probe_timeout_indistinguishable_cex :
    (probeH ⟨[⟨"P", "X", some 7, none, 5, some "Locked", some 90⟩], [],
        [("P", ⟨true, some "s1", some "Unknown", some 100⟩)], [("s1", some "P")]⟩
        7 "P" none none 200).2.1 =
      (probeH ⟨[⟨"P", "X", some 7, none, 5, some "Locked", some 90⟩], [],
        [("P", ⟨true, some "s1", none, none⟩)], [("s1", some "P")]⟩
        7 "P" (some ⟨some "Unknown", some 100⟩) none 200).2.1 ∧
    (probeH ⟨[⟨"P", "X", some 7, none, 5, some "Locked", some 90⟩], [],
        [("P", ⟨true, some "s1", some "Unknown", some 100⟩)], [("s1", some "P")]⟩
        7 "P" none none 200).2.1 = ProbeResp.probed "Unknown" (some 100) := by
  constructor <;> rfl

/-- C3 amended: when both the fast path and the legacy poll produce no answer,
    the probe answers 200 with the current registry status defaulted to
    Unknown, the registry lastStatusAt, and the probed flag — the same shape a
    successful probe uses, with no failure marker. -/
theorem probe_timeout_returns_registry_status (st : SState) (uid : Nat) (pcId : String)
    (now : Nat) (row : Row) (c : Conn)
    (hrow : getRow st.store pcId = some row) (hown : row.owner_id = some uid)
    (hc : rget st.reg pcId = some c) (hlive : isLive c = true) :
    (probeH st uid pcId none none now).2.1 =
      ProbeResp.probed (jsOrStr c.status "Unknown") (natNull c.lastStatusAt) := by
  have hparts : c.connected = true ∧ strTruthy c.socketId = true := by
    unfold isLive at hlive
    simpa using hlive
  have hcon := hparts.1
  have hsk := hparts.2
  unfold probeH
  rw [hrow]
  simp only [hown, ne_eq, not_true_eq_false, if_false, hc, hlive, if_true]
  simp only [hcon, hsk, Bool.and_self, Bool.not_true, Bool.false_eq_true, if_false,
    Option.getD_some]
  cases hsid : c.socketId with
  | none => rw [hsid] at hsk; cases hsk
  | some sid =>
    by_cases hexists : sockLiveIn st.socks sid
    · simp [hexists, hc]
    · simp [hexists, hc]

/-- Witness for the amended C3 at a concrete state. -/
theorem probe_timeout_returns_registry_status_witness :
    (probeH ⟨[⟨"Q", "Y", some 3, none, 5, none, none⟩], [],
        [("Q", ⟨true, some "s9", some "Locked", some 40⟩)], []⟩
        3 "Q" none none 60).2.1 =
      ProbeResp.probed (jsOrStr (some "Locked") "Unknown") (natNull (some 40)) :=
  probe_timeout_returns_registry_status
    ⟨[⟨"Q", "Y", some 3, none, 5, none, none⟩], [],
      [("Q", ⟨true, some "s9", some "Locked", some 40⟩)], []⟩
    3 "Q" 60 ⟨"Q", "Y", some 3, none, 5, none, none⟩
    ⟨true, some "s9", some "Locked", some 40⟩ (by decide) rfl (by decide) (by decide)

/-! C2. -/

theorem getRow_upsertSocket_self (store : List Row) (k nm : String) (now : Nat)
    (ip : Option String) (owner : Option Nat) (r0 : Row)
    (hr0 : getRow store k = some r0) :
    getRow (upsertSocket store k nm now ip owner) k =
      some { r0 with
          name := nm
          last_seen := now
          ip := (match ip with | some v => some v | none => r0.ip)
          owner_id := (match owner with | some v => some v | none => r0.owner_id) } := by
  unfold upsertSocket
  rw [hr0]
  simp only [Option.isSome_some, if_true]
  rw [getRow_map]
  · rw [hr0, Option.map_some']
    simp [getRow_eq_some_key store k r0 hr0]
  · intro r
    split <;> rfl

theorem getRow_upsertSocket_other (store : List Row) (k k' nm : String) (now : Nat)
    (ip : Option String) (owner : Option Nat)
    (hk : (getRow store k).isSome) (h' : getRow store k' = none) :
    getRow (upsertSocket store k nm now ip owner) k' = none := by
  unfold upsertSocket
  simp only [hk, if_true]
  rw [getRow_map]
  · rw [h']
    rfl
  · intro r
    split <;> rfl

/-- C2 counterexample: the store holds the row for pc_id A with name X and a
    null owner_id, and a device announces as B with name X over a socket whose
    session carries user 7. The merge does resolve to A, but the persisted
    owner of A becomes 7 — the ownership implied by the new announce wins over
    the existing null owner, contradicting the claim that the existing
    owner_id of A is always preserved. -/
theorem announce_merge_owner_cex :
    (getRow ((registerPcSocket ⟨[⟨"A", "X", none, none, 5, none, none⟩], [], [],
        [("s1", none)]⟩ "s1" ⟨"B", some "X", some "pc_app", none⟩ (some 7) 10).1.store)
        "A").bind Row.owner_id = some 7 ∧
    (getRow [(⟨"A", "X", none, none, 5, none, none⟩ : Row)] "A").bind Row.owner_id = none ∧
    (registerPcSocket ⟨[⟨"A", "X", none, none, 5, none, none⟩], [], [],
        [("s1", none)]⟩ "s1" ⟨"B", some "X", some "pc_app", none⟩ (some 7) 10).2.2 = "A" := by
  refine ⟨rfl, rfl, rfl⟩

/-- C2 amended: when the most-recently-seen row with the announced name has a
    different pc_id A and a non-null owner, the announce resolves to A: the
    upsert targets A and keeps its owner, no row is created for the new id B,
    the in-memory entry moves from B to A with the key B discarded, and the
    transport is tagged A. When the existing owner is null, the ownership
    context of the announce is used instead (see the counterexample). -/
theorem announce_merge_preserves_owner (st : SState) (sid : String)
    (B nm : String) (lip : Option String) (sess : Option Nat) (now : Nat)
    (rA : Row) (A : String) (w : Nat)
    (hnm : nm ≠ "") (hfind : findByName st.store nm = some rA)
    (hA : rA.pc_id = A) (hA0 : A ≠ "") (hAB : A ≠ B)
    (hw : rA.owner_id = some w) (hw0 : w ≠ 0)
    (hBrow : getRow st.store B = none) :
    (registerPcSocket st sid ⟨B, some nm, some "pc_app", lip⟩ sess now).2.2 = A ∧
    (∃ r, getRow (registerPcSocket st sid ⟨B, some nm, some "pc_app", lip⟩ sess now).1.store A
        = some r ∧ r.owner_id = some w ∧ r.name = nm ∧ r.last_seen = now) ∧
    getRow (registerPcSocket st sid ⟨B, some nm, some "pc_app", lip⟩ sess now).1.store B = none ∧
    rget (registerPcSocket st sid ⟨B, some nm, some "pc_app", lip⟩ sess now).1.reg B = none ∧
    (∃ c, rget (registerPcSocket st sid ⟨B, some nm, some "pc_app", lip⟩ sess now).1.reg A
        = some c ∧ c.connected = true ∧ c.socketId = some sid) ∧
    tagOf (registerPcSocket st sid ⟨B, some nm, some "pc_app", lip⟩ sess now).1.socks sid
      = some A := by
  have hmem := findByName_mem st.store nm rA hfind
  have hsome : (getRow st.store A).isSome :=
    getRow_isSome_of_mem st.store rA A hmem.1 hA
  obtain ⟨r0, hr0⟩ := Option.isSome_iff_exists.mp hsome
  have hr0k : r0.pc_id = A := getRow_eq_some_key st.store A r0 hr0
  unfold registerPcSocket
  simp only [hfind, hnm, hA, hw, strTruthy, natTruthy, jsOrStr, ne_eq, hA0, hAB, hw0,
    if_false, ite_false, not_false_eq_true, and_true, true_and, Option.map_some,
    Option.bind_some, Option.some_bind, decide_not, if_neg, reduceCtorEq,
    not_true_eq_false, Bool.and_self, if_true, Option.map_some', decide_True,
    Bool.not_false, Bool.and_true, Bool.true_and, decide_False]
  rw [rget_rset_self]
  refine ⟨⟨_, getRow_upsertSocket_self st.store A nm now (strNull lip) (some w) r0 hr0,
      rfl, rfl, rfl⟩,
    getRow_upsertSocket_other st.store A B nm now (strNull lip) (some w) hsome hBrow,
    ?_, ?_, ?_⟩
  · exact rget_rdel_self _ _
  · simp only [rget_rdel_ne _ _ _ hAB, rget_rset_self]
    exact ⟨_, rfl, rfl, rfl⟩
  · exact tagOf_tset_self _ _ _

/-- Witness for the amended C2 at a concrete state. -/
theorem announce_merge_preserves_owner_witness :
    (registerPcSocket ⟨[⟨"A", "X", some 7, none, 5, none, none⟩], [], [], [("s1", none)]⟩
        "s1" ⟨"B", some "X", some "pc_app", none⟩ none 10).2.2 = "A" ∧
    (∃ r, getRow (registerPcSocket ⟨[⟨"A", "X", some 7, none, 5, none, none⟩], [], [],
          [("s1", none)]⟩ "s1" ⟨"B", some "X", some "pc_app", none⟩ none 10).1.store "A"
        = some r ∧ r.owner_id = some 7 ∧ r.name = "X" ∧ r.last_seen = 10) ∧
    getRow (registerPcSocket ⟨[⟨"A", "X", some 7, none, 5, none, none⟩], [], [],
        [("s1", none)]⟩ "s1" ⟨"B", some "X", some "pc_app", none⟩ none 10).1.store "B" = none ∧
    rget (registerPcSocket ⟨[⟨"A", "X", some 7, none, 5, none, none⟩], [], [],
        [("s1", none)]⟩ "s1" ⟨"B", some "X", some "pc_app", none⟩ none 10).1.reg "B" = none ∧
    (∃ c, rget (registerPcSocket ⟨[⟨"A", "X", some 7, none, 5, none, none⟩], [], [],
        [("s1", none)]⟩ "s1" ⟨"B", some "X", some "pc_app", none⟩ none 10).1.reg "A"
        = some c ∧ c.connected = true ∧ c.socketId = some "s1") ∧
    tagOf (registerPcSocket ⟨[⟨"A", "X", some 7, none, 5, none, none⟩], [], [],
        [("s1", none)]⟩ "s1" ⟨"B", some "X", some "pc_app", none⟩ none 10).1.socks "s1"
      = some "A" :=
  announce_merge_preserves_owner
    ⟨[⟨"A", "X", some 7, none, 5, none, none⟩], [], [], [("s1", none)]⟩
    "s1" "B" "X" none none 10 ⟨"A", "X", some 7, none, 5, none, none⟩ "A" 7
    (by decide) rfl rfl (by decide) (by decide) rfl (by decide) rfl

/-! C6. -/

theorem rhas_rdel_ne (reg : Registry) (k k' : String) (h : k' ≠ k)
    (hh : rhas reg k') : rhas (rdel reg k) k' := by
  simpa [rhas, rget_rdel_ne reg k k' h] using hh

theorem pcStatusH_preserves (st : SState) (sid : String) (msg : StatusMsg)
    (now : Nat) (b : Bool) (k : String) (h : rhas st.reg k) :
    rhas (pcStatusH st sid msg now b).1.reg k := by
  unfold pcStatusH
  cases hres : resolveStatusId st sid msg with
  | none => exact h
  | some p =>
    by_cases hp : p = ""
    · simp only [hp, if_true]
      exact h
    · simp only [hp, if_neg, ite_false]
      exact rhas_rset _ _ _ _ h

theorem disconnectH_preserves (st : SState) (sid : String) (now : Nat)
    (k : String) (h : rhas st.reg k) :
    rhas (disconnectH st sid now).1.reg k := by
  unfold disconnectH
  cases reverseIdOf st sid with
  | none => exact h
  | some p =>
    by_cases hp : p = ""
    · simp only [hp, if_true]
      exact h
    · simp only [hp, if_neg, ite_false]
      exact rhas_rset _ _ _ _ h

theorem scanSockets_preserves (reg : Registry) (socks : Sockets) (pcId k : String)
    (h : rhas reg k) : rhas (scanSockets reg socks pcId).1 k := by
  unfold scanSockets
  cases scanFor socks pcId with
  | some sid => exact rhas_rset _ _ _ _ h
  | none => exact h

theorem resolveScan_preserves (reg : Registry) (socks : Sockets) (pcId k : String)
    (h : rhas reg k) : rhas (resolveScan reg socks pcId).1 k := by
  unfold resolveScan
  cases rget reg pcId with
  | some c =>
    by_cases hc : strTruthy c.socketId
    · simp only [hc, if_true]
      exact h
    · simp only [hc, Bool.false_eq_true, if_false]
      exact scanSockets_preserves reg socks pcId k h
  | none => exact scanSockets_preserves reg socks pcId k h

theorem probeH_preserves (st : SState) (uid : Nat) (pcId : String)
    (fr : Option ReplyPayload) (pu : Option Conn) (now : Nat) (k : String)
    (h : rhas st.reg k) : rhas (probeH st uid pcId fr pu now).1.reg k := by
  unfold probeH
  cases hrow : getRow st.store pcId with
  | none => exact h
  | some row =>
    dsimp only
    by_cases hown : row.owner_id ≠ some uid
    · rw [if_pos hown]
      exact h
    · rw [if_neg hown]
      have h1 : rhas (match rget st.reg pcId with
          | some c => if isLive c then (st.reg, some c, 0)
              else resolveScan st.reg st.socks pcId
          | none => resolveScan st.reg st.socks pcId).1 k := by
        cases rget st.reg pcId with
        | some c =>
          by_cases hl : isLive c
          · simp only [hl, if_true]
            exact h
          · simp only [hl, Bool.false_eq_true, if_false]
            exact resolveScan_preserves _ _ _ _ h
        | none => exact resolveScan_preserves _ _ _ _ h
      generalize hres : (match rget st.reg pcId with
          | some c => if isLive c then (st.reg, some c, 0)
              else resolveScan st.reg st.socks pcId
          | none => resolveScan st.reg st.socks pcId) = res at h1 ⊢
      obtain ⟨reg1, connOpt, scanMs⟩ := res
      repeat' split
      all_goals
        first
          | exact h1
          | exact rhas_rset _ _ _ _ h1
          | exact rhas_rset _ _ _ _ (rhas_rset _ _ _ _ h1)

theorem registerPcSocket_preserves (st : SState) (sid : String) (msg : RegisterMsg)
    (sess : Option Nat) (now : Nat) (k : String) (h : rhas st.reg k) :
    rhas (registerPcSocket st sid msg sess now).1.reg k ∨
      (k = msg.id ∧ (registerPcSocket st sid msg sess now).2.2 ≠ msg.id ∧
        rhas (registerPcSocket st sid msg sess now).1.reg
          (registerPcSocket st sid msg sess now).2.2) := by
  unfold registerPcSocket
  by_cases hct : msg.clientType ≠ some "pc_app"
  · rw [if_pos hct]
    exact Or.inl h
  · rw [if_neg hct]
    dsimp only
    generalize hfound : (match msg.name with
      | some nm => if nm = "" then none else findByName st.store nm
      | none => none) = found
    cases found with
    | none =>
      exact Or.inl (rhas_rset _ _ _ _ h)
    | some rA =>
      by_cases hp1 : rA.pc_id = ""
      · have hcond : (decide (rA.pc_id ≠ "") && decide (rA.pc_id ≠ msg.id)) = false := by
          simp [hp1]
        simp only [Option.map_some', hcond, Bool.false_eq_true, if_false, ite_false]
        exact Or.inl (rhas_rset _ _ _ _ h)
      · by_cases hp2 : rA.pc_id = msg.id
        · have hcond : (decide (rA.pc_id ≠ "") && decide (rA.pc_id ≠ msg.id)) = false := by
            simp [hp2]
          simp only [Option.map_some', hcond, Bool.false_eq_true, if_false, ite_false]
          exact Or.inl (rhas_rset _ _ _ _ h)
        · have hcond : (decide (rA.pc_id ≠ "") && decide (rA.pc_id ≠ msg.id)) = true := by
            simp [hp1, hp2]
          have hfin : jsOrStr (some rA.pc_id) msg.id = rA.pc_id := by
            simp [jsOrStr, hp1]
          simp only [Option.map_some', hcond, if_true, ite_true, hfin, rget_rset_self]
          by_cases hk : k = msg.id
          · refine Or.inr ⟨hk, hp2, ?_⟩
            unfold rhas
            rw [rget_rdel_ne _ _ _ hp2, rget_rset_self]
            rfl
          · refine Or.inl ?_
            exact rhas_rdel_ne _ _ _ hk (rhas_rset _ _ _ _ (rhas_rset _ _ _ _ h))

/-- C6 counterexample: the registry holds an entry under key B, the store
    holds a row named X under pc_id A, and a register_pc for id B with name X
    arrives: the identity merge deletes the key B from the registry, so an
    announce can delete a registry entry, contrary to the claim that no core
    operation ever deletes one. -/
theorem registry_entry_deleted_cex :
    rget ([("B", ⟨false, none, some "Locked", some 3⟩)] : Registry) "B" =
      some ⟨false, none, some "Locked", some 3⟩ ∧
    rget (registerPcSocket ⟨[⟨"A", "X", some 7, none, 5, none, none⟩], [],
        [("B", ⟨false, none, some "Locked", some 3⟩)], [("s1", none)]⟩
        "s1" ⟨"B", some "X", some "pc_app", none⟩ none 10).1.reg "B" = none :=
  ⟨rfl, rfl⟩

/-- C6 amended: the status report, disconnect and probe handlers never delete
    a registry entry; the announce handler preserves every entry except that,
    when it merges the announced id into a different canonical id, the entry
    under the announced id is moved there and its old key is discarded. -/
theorem registry_entries_never_deleted_amended :
    (∀ st sid msg now b k, rhas st.reg k → rhas (pcStatusH st sid msg now b).1.reg k) ∧
    (∀ st sid now k, rhas st.reg k → rhas (disconnectH st sid now).1.reg k) ∧
    (∀ st uid pcId fr pu now k, rhas st.reg k →
      rhas (probeH st uid pcId fr pu now).1.reg k) ∧
    (∀ st sid msg sess now k, rhas st.reg k →
      rhas (registerPcSocket st sid msg sess now).1.reg k ∨
        (k = msg.id ∧ (registerPcSocket st sid msg sess now).2.2 ≠ msg.id ∧
          rhas (registerPcSocket st sid msg sess now).1.reg
            (registerPcSocket st sid msg sess now).2.2)) :=
  ⟨fun st sid msg now b k h => pcStatusH_preserves st sid msg now b k h,
   fun st sid now k h => disconnectH_preserves st sid now k h,
   fun st uid pcId fr pu now k h => probeH_preserves st uid pcId fr pu now k h,
   fun st sid msg sess now k h => registerPcSocket_preserves st sid msg sess now k h⟩

/-- Witness for the amended C6 at a concrete state. -/
theorem registry_entries_never_deleted_amended_witness :
    rhas (pcStatusH ⟨[], [], [("P", ⟨true, some "s1", some "Locked", some 2⟩)], []⟩
        "s2" ⟨some "P", some "Unlocked"⟩ 9 true).1.reg "P" = true :=
  registry_entries_never_deleted_amended.1
    ⟨[], [], [("P", ⟨true, some "s1", some "Locked", some 2⟩)], []⟩
    "s2" ⟨some "P", some "Unlocked"⟩ 9 true "P" (by decide)

/-! C7. -/

theorem findByName_map_of_preserve (store : List Row) (nm : String) (g : Row → Row)
    (hname : ∀ r, (g r).name = r.name) (hseen : ∀ r, (g r).last_seen = r.last_seen) :
    findByName (store.map g) nm = (findByName store nm).map g := by
  have hfilter : (store.map g).filter (fun r => r.name = nm) =
      (store.filter (fun r => r.name = nm)).map g := by
    induction store with
    | nil => rfl
    | cons a t ih =>
      by_cases ha : a.name = nm
      · simp [hname, ha, ih]
      · simp [hname, ha, ih]
  have hfold : ∀ (t : List Row) (r : Row),
      (t.map g).foldl betterSeen (g r) = g (t.foldl betterSeen r) := by
    intro t
    induction t with
    | nil => intro r; rfl
    | cons bb t ih =>
      intro r
      have hbs : betterSeen (g r) (g bb) = g (betterSeen r bb) := by
        unfold betterSeen
        rw [hseen, hseen]
        split <;> rfl
      simp only [List.map_cons, List.foldl_cons, hbs, ih]
  unfold findByName
  rw [hfilter]
  cases store.filter (fun r => r.name = nm) with
  | nil => rfl
  | cons r0 t => simp [hfold]

theorem pcStatusH_sets_entry (st : SState) (sid id s : String) (nowS : Nat) (b : Bool)
    (hid : id ≠ "") (hs : s ≠ "") :
    rget (pcStatusH st sid ⟨some id, some s⟩ nowS b).1.reg id =
      some ⟨true, some sid, some s, some nowS⟩ := by
  unfold pcStatusH resolveStatusId
  simp only [strTruthy, hid, decide_not, ne_eq, not_false_eq_true, decide_True,
    Bool.not_false, if_true, ite_true, hs, if_neg, ite_false]
  exact rget_rset_self _ _ _

theorem pcStatusH_store_eq (st : SState) (sid id s : String) (nowS : Nat) (b : Bool)
    (hid : id ≠ "") (hs : s ≠ "") :
    (pcStatusH st sid ⟨some id, some s⟩ nowS b).1.store =
      if b then updStatus st.store id s nowS else st.store := by
  unfold pcStatusH resolveStatusId
  simp only [strTruthy, hid, decide_not, ne_eq, not_false_eq_true, decide_True,
    Bool.not_false, if_true, ite_true, hs, if_neg, ite_false]

theorem registerPcSocket_keeps_entry (st : SState) (sid : String) (msg : RegisterMsg)
    (sess : Option Nat) (nowA : Nat) (c : Conn)
    (hct : msg.clientType = some "pc_app")
    (hc : rget st.reg msg.id = some c)
    (hcon : c.connected = true) (hsid : c.socketId = some sid)
    (hst : strTruthy c.status = true)
    (hname : ∀ r, (match msg.name with
        | some nm => if nm = "" then none else findByName st.store nm
        | none => none) = some r → r.pc_id = msg.id) :
    rget (registerPcSocket st sid msg sess nowA).1.reg msg.id = some c := by
  obtain ⟨cc, cs, cst, cl⟩ := c
  simp only at hcon hsid hst
  subst hcon hsid
  unfold registerPcSocket
  rw [if_neg (by simp [hct])]
  dsimp only
  rw [hc]
  simp only [Option.getD_some, hst, if_true, ite_true]
  generalize hfound : (match msg.name with
    | some nm => if nm = "" then none else findByName st.store nm
    | none => none) = found
  cases found with
  | none =>
    exact rget_rset_self _ _ _
  | some rA =>
    have hpa : rA.pc_id = msg.id := hname rA hfound
    have hcond : (decide (rA.pc_id ≠ "") && decide (rA.pc_id ≠ msg.id)) = false := by
      simp [hpa]
    simp only [Option.map_some', hcond, Bool.false_eq_true, if_false, ite_false]
    exact rget_rset_self _ _ _

/-- C7: for one device and transport, an announce followed by a status report
    reaches the same final registry entry as the status report followed by the
    announce — the announce merges and never clobbers a known status or
    lastStatusAt, so both orders end at the same connected entry. -/
theorem announce_status_order_independent (st : SState) (sid id nm s : String)
    (lip : Option String) (sess : Option Nat) (nowA nowS : Nat) (b : Bool)
    (hid : id ≠ "") (hnm : nm ≠ "") (hs : s ≠ "")
    (hname : ∀ r, findByName st.store nm = some r → r.pc_id = id) :
    rget (pcStatusH (registerPcSocket st sid ⟨id, some nm, some "pc_app", lip⟩ sess nowA).1
        sid ⟨some id, some s⟩ nowS b).1.reg id = some ⟨true, some sid, some s, some nowS⟩ ∧
    rget (registerPcSocket (pcStatusH st sid ⟨some id, some s⟩ nowS b).1
        sid ⟨id, some nm, some "pc_app", lip⟩ sess nowA).1.reg id =
      some ⟨true, some sid, some s, some nowS⟩ := by
  constructor
  · exact pcStatusH_sets_entry _ sid id s nowS b hid hs
  · have hentry := pcStatusH_sets_entry st sid id s nowS b hid hs
    have hstore := pcStatusH_store_eq st sid id s nowS b hid hs
    refine registerPcSocket_keeps_entry _ sid ⟨id, some nm, some "pc_app", lip⟩ sess nowA
      ⟨true, some sid, some s, some nowS⟩ rfl hentry rfl rfl (by simp [strTruthy, hs]) ?_
    intro r hr
    dsimp only at hr
    rw [if_neg hnm] at hr
    rw [hstore] at hr
    cases b with
    | false =>
      simp only [Bool.false_eq_true, if_false] at hr
      exact hname r hr
    | true =>
      simp only [if_true] at hr
      have hupd : updStatus st.store id s nowS = st.store.map
          (fun r => if r.pc_id = id then
            { r with last_status := some s, last_status_at := some nowS } else r) := rfl
      rw [hupd, findByName_map_of_preserve st.store nm _
        (by intro r2; split <;> rfl) (by intro r2; split <;> rfl)] at hr
      cases hf : findByName st.store nm with
      | none => rw [hf] at hr; cases hr
      | some r0 =>
        rw [hf, Option.map_some'] at hr
        have hr0 : r0.pc_id = id := hname r0 hf
        have : r = if r0.pc_id = id then
            { r0 with last_status := some s, last_status_at := some nowS } else r0 := by
          exact (Option.some.injEq _ _).mp hr.symm
        rw [this, if_pos hr0]
        exact hr0

/-- Witness for C7 at a concrete state. -/
theorem announce_status_order_independent_witness :
    rget (pcStatusH (registerPcSocket ⟨[⟨"D", "N", some 7, none, 5, some "Locked", some 4⟩],
        [], [], [("s1", none)]⟩ "s1" ⟨"D", some "N", some "pc_app", none⟩ none 10).1
        "s1" ⟨some "D", some "Unlocked"⟩ 11 true).1.reg "D" =
      some ⟨true, some "s1", some "Unlocked", some 11⟩ ∧
    rget (registerPcSocket (pcStatusH ⟨[⟨"D", "N", some 7, none, 5, some "Locked", some 4⟩],
        [], [], [("s1", none)]⟩ "s1" ⟨some "D", some "Unlocked"⟩ 11 true).1
        "s1" ⟨"D", some "N", some "pc_app", none⟩ none 10).1.reg "D" =
      some ⟨true, some "s1", some "Unlocked", some 11⟩ :=
  announce_status_order_independent
    ⟨[⟨"D", "N", some 7, none, 5, some "Locked", some 4⟩], [], [], [("s1", none)]⟩
    "s1" "D" "N" "Unlocked" none none 10 11 true
    (by decide) (by decide) (by decide) (by decide)

/-! C8. -/

/-- C8 counterexample: a pc_app announce over a socket, for a device whose
    owner has zero block periods, emits a scheduleUpdate with the empty list
    to that device — the socket registration path lacks the non-empty guard
    the other two paths have. -/
theorem schedule_empty_push_cex :
    Action.scheduleToSocket "s1" [] ∈
      (registerPcSocket ⟨[⟨"A", "X", some 7, none, 5, none, none⟩], [], [], [("s1", none)]⟩
        "s1" ⟨"A", some "X", some "pc_app", none⟩ none 10).2.1 := by decide

/-- C8 amended: the schedule-change notification path and the HTTP
    registration path emit a scheduleUpdate only when the block list is
    non-empty; the socket registration path has no such guard and can push an
    empty list (see the counterexample). -/
theorem schedule_empty_suppressed_amended :
    (∀ st uid sid rows, Action.scheduleToSocket sid rows ∈
        notifyScheduleChangeForUser st uid → rows ≠ []) ∧
    (∀ st uid u2 rows, Action.scheduleToDashboard u2 rows ∈
        notifyScheduleChangeForUser st uid → rows ≠ []) ∧
    (∀ st uid msg now sid rows, Action.scheduleToSocket sid rows ∈
        (apiRegisterPc st uid msg now).2 → rows ≠ []) := by
  refine ⟨?_, ?_, ?_⟩
  · intro st uid sid rows h
    simp only [notifyScheduleChangeForUser] at h
    rcases List.mem_append.mp h with h1 | h2
    · rcases List.mem_filterMap.mp h1 with ⟨r, _, hf⟩
      cases hrg : rget st.reg r.pc_id with
      | none => rw [hrg] at hf; cases hf
      | some c =>
        rw [hrg] at hf
        dsimp only at hf
        by_cases hcon : (c.connected && strTruthy c.socketId) = true
        · rw [if_pos hcon] at hf
          by_cases hne : periodsOf st uid ≠ []
          · rw [if_pos hne] at hf
            have := Option.some.inj hf
            have hrows : periodsOf st uid = rows := by
              injection this
            rw [← hrows]
            exact hne
          · rw [if_neg hne] at hf; cases hf
        · rw [if_neg hcon] at hf; cases hf
    · by_cases hne : periodsOf st uid ≠ []
      · rw [if_pos hne] at h2
        simp at h2
      · rw [if_neg hne] at h2; cases h2
  · intro st uid u2 rows h
    simp only [notifyScheduleChangeForUser] at h
    rcases List.mem_append.mp h with h1 | h2
    · rcases List.mem_filterMap.mp h1 with ⟨r, _, hf⟩
      cases hrg : rget st.reg r.pc_id with
      | none => rw [hrg] at hf; cases hf
      | some c =>
        rw [hrg] at hf
        dsimp only at hf
        by_cases hcon : (c.connected && strTruthy c.socketId) = true
        · rw [if_pos hcon] at hf
          by_cases hne : periodsOf st uid ≠ []
          · rw [if_pos hne] at hf
            have := Option.some.inj hf
            cases this
          · rw [if_neg hne] at hf; cases hf
        · rw [if_neg hcon] at hf; cases hf
    · by_cases hne : periodsOf st uid ≠ []
      · rw [if_pos hne] at h2
        have h3 := List.mem_singleton.mp h2
        have hrows : periodsOf st uid = rows := by
          injection h3.symm
        rw [← hrows]
        exact hne
      · rw [if_neg hne] at h2; cases h2
  · intro st uid msg now sid rows h
    simp only [apiRegisterPc] at h
    by_cases hids : ¬ strTruthy (some msg.id) = true
    · rw [if_pos hids] at h
      cases h
    · rw [if_neg hids] at h
      rcases List.mem_append.mp h with h1 | h2
      · cases hrg : rget st.reg msg.id with
        | none => rw [hrg] at h1; cases h1
        | some c =>
          rw [hrg] at h1
          dsimp only at h1
          by_cases hcon : (msg.clientType = some "pc_app" && c.connected &&
              strTruthy c.socketId) = true
          · rw [if_pos hcon] at h1
            split at h1
            all_goals try split at h1
            all_goals
              first
                | (rename_i hp
                   have h3 := List.mem_singleton.mp h1
                   injection h3 with hsid hrows
                   rw [hrows]
                   exact hp)
                | cases h1
          · rw [if_neg hcon] at h1; cases h1
      · rcases List.mem_map.mp h2 with ⟨o, _, ho⟩
        cases ho

/-- Witness for the amended C8 at a concrete state. -/
theorem schedule_empty_suppressed_amended_witness :
    ([⟨1, 7, "08:00", "17:00", "[]"⟩] : List Period) ≠ [] :=
  schedule_empty_suppressed_amended.1
    ⟨[⟨"A", "X", some 7, none, 5, none, none⟩], [⟨1, 7, "08:00", "17:00", "[]"⟩],
      [("A", ⟨true, some "s1", none, none⟩)], []⟩
    7 "s1" [⟨1, 7, "08:00", "17:00", "[]"⟩] (by decide)

end LockPc
